import Mathlib

/-!
Verification of the subpixel text rendering demo (src/main.c) against its
natural-language specification.

The C code is shallowly embedded as executable Lean definitions: machine
bytes are natural numbers below 256, a byte buffer is a function from
positions to byte values, pointers are positions (`Nat`), C `float`
arithmetic in the layout pass is modelled over `ℚ`, values stored into
`int16_t` struct fields are wrapped into the int16 range, and the
stb_truetype font collaborator is abstracted as a structure of query
functions, matching the shaper interface of spec section 4.2.
-/

namespace SubpixelText

/-- Number of leading one bits of a byte, as computed by
`__builtin_clz(~byte << 24)` in src/main.c line 41.  Faithful for bytes
0..0xFE; for byte 0xFF the C expression is `__builtin_clz(0)`, which is
undefined behavior, and the model uses the mathematical count 8 there.
No theorem below depends on the 0xFF case. -/
def leadingOnes (b : Nat) : Nat :=
  if b < 0x80 then 0
  else if b < 0xC0 then 1
  else if b < 0xE0 then 2
  else if b < 0xF0 then 3
  else if b < 0xF8 then 4
  else if b < 0xFC then 5
  else if b < 0xFE then 6
  else if b < 0xFF then 7
  else 8

/-- One result of `utf8_next` (src/main.c lines 19-23): the updated cursor
position, the decoded codepoint, and — instrumentation for the read-bounds
property of spec section 4.1 — the list of buffer positions the call
dereferenced. -/
structure Utf8Result where
  pos : Nat
  codepoint : Nat
  reads : List Nat
deriving DecidableEq, Repr

/-- The continuation-byte decode loop of `utf8_next` (src/main.c lines
55-74), structurally recursive in the number `n` of additional bytes.  On a
well-formed continuation byte (`(byte & 0xC0) == 0x80`) the codepoint is
shifted left by 6 bits and ORed with the byte's 6 data bits — since the
shifted value has zero low bits this equals `cp * 64 + (byte &&& 0x3F)` —
and the cursor advances.  On any other byte the loop breaks with U+FFFD,
leaving the cursor on the offending byte. -/
def cont_loop (mem : Nat → Nat) : Nat → Nat → Nat → Nat × Nat × List Nat
  | p, cp, 0 => (p, cp, [])
  | p, cp, n + 1 =>
    if mem p &&& 0xC0 = 0x80 then
      let r := cont_loop mem (p + 1) (cp * 64 + (mem p &&& 0x3F)) n
      (r.1, r.2.1, p :: r.2.2)
    else (p, 0xFFFD, [p])

/-- The stray-continuation skip loop of `utf8_next` (src/main.c lines 85-86):
`while ((*(it.buffer) & 0xC0) == 0x80 && it.buffer < it.end) it.buffer++;`.
The loop guard `it.buffer < it.end` is encoded by the fuel argument, which
is always passed as `endPos - p`, the number of further steps the bound
check still permits.  The guard's dereference `*(it.buffer)` is evaluated
before the bound check (C `&&` evaluates left to right), so position `p` is
recorded as read even when the fuel is 0, i.e. when `p` has reached the end
bound. -/
def skip_cont_loop (mem : Nat → Nat) : Nat → Nat → Nat × List Nat
  | p, 0 => (p, [p])
  | p, fuel + 1 =>
    if mem p &&& 0xC0 = 0x80 then
      let r := skip_cont_loop mem (p + 1) fuel
      (r.1, p :: r.2)
    else (p, [p])

/-- Shallow embedding of `utf8_next` (src/main.c lines 25-91) over a byte
buffer `mem`, an end bound `endPos` and a cursor `pos`.  Mirrors the C
control flow: at the end bound and on a zero byte it returns codepoint 0
with the cursor unchanged; a byte with exactly one leading one bit (a stray
continuation byte) runs the skip loop and yields U+FFFD; otherwise the data
bits of the lead byte are `byte & ~(0xFFFFFFFF << data_bits)`, i.e.
`byte % 2 ^ data_bits`, and the continuation loop consumes
`leading_ones - 1` additional bytes, with the truncated-sequence case
(the signed comparison `it.buffer + additional_bytes <= it.end` failing)
returning U+FFFD with the cursor moved to the end bound.  For a one-byte
codepoint `additional_bytes` is `-1`, so the signed comparison always holds
and the loop body runs zero times, exactly as in the C source. -/
def utf8_next (mem : Nat → Nat) (endPos pos : Nat) : Utf8Result :=
  if pos = endPos then ⟨pos, 0, []⟩
  else if mem pos = 0 then ⟨pos, 0, [pos]⟩
  else if leadingOnes (mem pos) = 1 then
    let r := skip_cont_loop mem (pos + 1) (endPos - (pos + 1))
    ⟨r.1, 0xFFFD, pos :: r.2⟩
  else if ((pos : Int) + 1) + ((leadingOnes (mem pos) : Int) - 1) ≤ (endPos : Int) then
    let r := cont_loop mem (pos + 1)
      (mem pos % 2 ^ (((8 : Int) - 1 - (leadingOnes (mem pos) : Int)).toNat))
      (((leadingOnes (mem pos) : Int) - 1).toNat)
    ⟨r.1, r.2.1, pos :: r.2.2⟩
  else ⟨endPos, 0xFFFD, [pos]⟩

/-- `utf8_first` (src/main.c lines 93-101): start the iteration at position
0 with the end bound set to the highest possible address (UINTPTR_MAX on a
64-bit machine), so only the zero terminator stops the scan. -/
def utf8_first (mem : Nat → Nat) : Utf8Result :=
  utf8_next mem (2 ^ 64 - 1) 0

/-- Canonical UTF-8 encoding of a Unicode scalar value (the standard
encoding; used for the round-trip property of spec section 8). -/
def utf8_encode (c : Nat) : List Nat :=
  if c < 0x80 then [c]
  else if c < 0x800 then [0xC0 + c / 64, 0x80 + c % 64]
  else if c < 0x10000 then [0xE0 + c / 4096, 0x80 + c / 64 % 64, 0x80 + c % 64]
  else [0xF0 + c / 262144, 0x80 + c / 4096 % 64, 0x80 + c / 64 % 64, 0x80 + c % 64]

/-- The codepoint iteration of the layout pass (src/main.c line 545):
`for (it = utf8_first(text); it.codepoint != 0; it = utf8_next(it))`,
started from an arbitrary cursor.  The recursion is well-founded on
`endPos - pos`; the guard conditions `pos < r.pos ∧ r.pos ≤ endPos` are
exactly the progress facts proved below, so on every execution from a valid
cursor the guard never cuts the iteration short and the C loop terminates. -/
def utf8_decode_from (mem : Nat → Nat) (endPos pos : Nat) : List Nat :=
  if h : (utf8_next mem endPos pos).codepoint ≠ 0 ∧
      pos < (utf8_next mem endPos pos).pos ∧ (utf8_next mem endPos pos).pos ≤ endPos then
    (utf8_next mem endPos pos).codepoint ::
      utf8_decode_from mem endPos (utf8_next mem endPos pos).pos
  else []
termination_by endPos - pos
decreasing_by
  obtain ⟨h1, h2, h3⟩ := h
  omega

/-- Byte buffer holding the two bytes 0xC0 0x80 followed by zeros. -/
def mem_c0_80 : Nat → Nat := fun i => if i = 0 then 0xC0 else if i = 1 then 0x80 else 0

/-- Byte buffer consisting entirely of the stray continuation byte 0x80. -/
def mem_stray_cont : Nat → Nat := fun _ => 0x80

/-- The glyph-shaping collaborator interface (spec section 4.2), the
stb_truetype calls the layout loop makes (src/main.c lines 550, 571, 575,
610, 680).  Scales are rational (the C passes `float`s); a rasterized
bitmap is a coverage function from local subpixel coordinates. -/
structure Shaper where
  findGlyphIndex : Nat → Int
  getGlyphBitmapBox : Int → ℚ → ℚ → Int × Int × Int × Int
  makeGlyphBitmap : Int → ℚ → ℚ → Nat → Nat → Nat
  getGlyphHMetrics : Int → Int × Int
  getCodepointKernAdvance : Nat → Nat → Int

/-- `int16_rect_t` (src/main.c line 422).  Fields hold int16 values; the
wrap applied on storing is `int16_cast`. -/
structure int16_rect_t where
  left : Int
  top : Int
  right : Int
  bottom : Int
deriving DecidableEq, Repr

/-- `color_t` (src/main.c line 423). -/
structure color_t where
  r : Nat
  g : Nat
  b : Nat
  a : Nat
deriving DecidableEq, Repr

/-- `rect_instance_t` (src/main.c lines 424-429). -/
structure rect_instance_t where
  pos : int16_rect_t
  tex_coords : int16_rect_t
  color : color_t
  subpixel_shift : ℚ
deriving DecidableEq

/-- `glyph_atlas_item_t` (src/main.c line 483). -/
structure glyph_atlas_item_t where
  filled : Bool
  tex_coords : int16_rect_t
  glyph_index : Int
  distance_from_baseline_to_top_px : Int
deriving DecidableEq, Repr

/-- Result of one atlas-cache access: the item used, the (possibly updated)
item table, and whether this access rasterized and uploaded a glyph. -/
structure atlas_lookup_result_t where
  item : glyph_atlas_item_t
  items : Nat → glyph_atlas_item_t
  rasterized : Bool

/-- Atlas texture width in texels (src/main.c line 478). -/
def glyph_atlas_width : Nat := 512

/-- Atlas texture height in texels (src/main.c line 478). -/
def glyph_atlas_height : Nat := 512

/-- Atlas cell width (src/main.c line 592). -/
def atlas_item_width : Nat := 32

/-- Atlas cell height (src/main.c line 592). -/
def atlas_item_height : Nat := 32

/-- Subpixels per pixel (src/main.c line 603). -/
def horizontal_resolution : Nat := 3

/-- Filter padding in pixels (src/main.c line 558). -/
def horizontal_filter_padding : Nat := 1

/-- Subpixel positioning padding in pixels (src/main.c line 558). -/
def subpixel_positioning_left_padding : Nat := 1

/-- Number of entries of `glyph_atlas_items` (src/main.c line 484:
`glyph_atlas_item_t glyph_atlas_items[127]`), so its valid indices are
0..126. -/
def glyph_atlas_items_length : Nat := 127

/-- Horizontal offset of the rasterized glyph inside the working bitmap in
subpixel columns (src/main.c line 608). -/
def glyph_offset_x : Nat :=
  (subpixel_positioning_left_padding + horizontal_filter_padding) * horizontal_resolution

/-- Wrap an integer into the `int16_t` range, the effect of storing into an
`int16_t` struct field. -/
def int16_cast (x : Int) : Int := (x + 32768) % 65536 - 32768

/-- Truncation toward zero: the integral part produced by C `modff`, and
the behavior of converting a C float to an integer type. -/
def float_trunc (q : ℚ) : Int := if 0 ≤ q then ⌊q⌋ else -⌊-q⌋

/-- C `round`: round half away from zero. -/
def c_round (q : ℚ) : Int := if 0 ≤ q then ⌊q + 1 / 2⌋ else -⌊-q + 1 / 2⌋

/-- The domain precondition of the atlas cache (src/main.c line 561):
`assert(codepoint <= 127)`. -/
def codepoint_assert (codepoint : Nat) : Prop := codepoint ≤ 127

/-- The cache-miss path of the layout loop (src/main.c lines 567-676),
restricted to the data it stores in the atlas item.  The glyph index is
looked up, the pixel bounding box is queried at scales
`(font_scale, font_scale)` (line 575), and: a glyph with positive width and
height gets its atlas cell rectangle (the rasterize-and-upload branch,
recorded in the returned flag), while a zero-size glyph gets the sentinel
tex coords `-1` with no rasterization.  Both branches set `filled`. -/
def rasterize_and_store (sh : Shaper) (font_scale : ℚ) (codepoint : Nat) :
    glyph_atlas_item_t × Bool :=
  let glyph_index := sh.findGlyphIndex codepoint
  let box := sh.getGlyphBitmapBox glyph_index font_scale font_scale
  let glyph_width_px := box.2.2.1 - box.1
  let glyph_height_px := box.2.2.2 - box.2.1
  let distance_from_baseline_to_top_px := -box.2.1
  if glyph_width_px > 0 ∧ glyph_height_px > 0 then
    let padded_glyph_width_px : Int :=
      (subpixel_positioning_left_padding : Int) + (horizontal_filter_padding : Int)
        + glyph_width_px + (horizontal_filter_padding : Int)
    let atlas_item_x : Nat :=
      codepoint % (glyph_atlas_width / atlas_item_width) * atlas_item_width
    let atlas_item_y : Nat :=
      codepoint / (glyph_atlas_height / atlas_item_height) * atlas_item_height
    ({ filled := true,
       tex_coords :=
        { left := int16_cast atlas_item_x,
          top := int16_cast atlas_item_y,
          right := int16_cast ((atlas_item_x : Int) + padded_glyph_width_px),
          bottom := int16_cast ((atlas_item_y : Int) + glyph_height_px) },
       glyph_index := glyph_index,
       distance_from_baseline_to_top_px := distance_from_baseline_to_top_px }, true)
  else
    ({ filled := true,
       tex_coords := { left := -1, top := -1, right := -1, bottom := -1 },
       glyph_index := glyph_index,
       distance_from_baseline_to_top_px := distance_from_baseline_to_top_px }, false)

/-- The atlas-cache access of the layout loop (src/main.c lines 562-677):
look up the codepoint's entry; a filled entry is used unchanged, otherwise
the miss path runs and the finished item is stored back at the codepoint's
index. -/
def glyph_atlas_get_or_create (sh : Shaper) (font_scale : ℚ)
    (items : Nat → glyph_atlas_item_t) (codepoint : Nat) : atlas_lookup_result_t :=
  let item := items codepoint
  if item.filled then ⟨item, items, false⟩
  else
    let r := rasterize_and_store sh font_scale codepoint
    ⟨r.1, fun c => if c = codepoint then r.1 else items c, r.2⟩

/-- The mutable state of the layout loop (src/main.c lines 431, 539-544):
pen position, previous codepoint, the atlas item table, the rectangle
batch, and — instrumentation for the idempotence property — a count of
rasterize-and-upload events.  The `rect_buffer` of capacity 255 is
modelled as an unbounded list; its overflow is the spec's open question in
section 9, not one of the claims. -/
structure LayoutState where
  current_x : ℚ
  current_y : ℚ
  prev_codepoint : Nat
  atlas_items : Nat → glyph_atlas_item_t
  rects : List rect_instance_t
  rasterizations : Nat

/-- One iteration of the layout loop body (src/main.c lines 546-703) for a
nonzero codepoint: apply kerning against the previous codepoint, record
this codepoint as the previous one (line 551, unconditionally), then either
handle a line feed (reset x, advance y by the rounded line height) or
resolve the atlas entry, emit a rectangle if the entry is not the empty
sentinel, and advance the pen by the scaled advance width. -/
def layout_step (sh : Shaper) (font_scale pos_x line_height : ℚ) (text_color : color_t)
    (st : LayoutState) (codepoint : Nat) : LayoutState :=
  let x := if st.prev_codepoint ≠ 0 then
      st.current_x + (sh.getCodepointKernAdvance st.prev_codepoint codepoint : ℚ) * font_scale
    else st.current_x
  if codepoint = 10 then
    { st with
      current_x := pos_x,
      current_y := st.current_y + (c_round line_height : ℚ),
      prev_codepoint := codepoint }
  else
    let r := glyph_atlas_get_or_create sh font_scale st.atlas_items codepoint
    let m := sh.getGlyphHMetrics r.item.glyph_index
    let rects :=
      if r.item.tex_coords.left ≠ -1 then
        let glyph_pos_x : ℚ := x + (m.2 : ℚ) * font_scale
        let glyph_pos_x_px : Int := float_trunc glyph_pos_x
        let glyph_pos_y_px : ℚ := st.current_y - (r.item.distance_from_baseline_to_top_px : ℚ)
        let glyph_width_with_horiz_filter_padding : Int :=
          r.item.tex_coords.right - r.item.tex_coords.left
        let glyph_height : Int := r.item.tex_coords.bottom - r.item.tex_coords.top
        st.rects ++ [{
          pos :=
            { left := int16_cast (glyph_pos_x_px
                - ((subpixel_positioning_left_padding : Int) + (horizontal_filter_padding : Int))),
              top := int16_cast (float_trunc glyph_pos_y_px),
              right := int16_cast (glyph_pos_x_px
                - ((subpixel_positioning_left_padding : Int) + (horizontal_filter_padding : Int))
                + glyph_width_with_horiz_filter_padding),
              bottom := int16_cast (float_trunc (glyph_pos_y_px + (glyph_height : ℚ))) },
          tex_coords := r.item.tex_coords,
          color := text_color,
          subpixel_shift := glyph_pos_x - (glyph_pos_x_px : ℚ) }]
      else st.rects
    { current_x := x + (m.1 : ℚ) * font_scale,
      current_y := st.current_y,
      prev_codepoint := codepoint,
      atlas_items := r.items,
      rects := rects,
      rasterizations := st.rasterizations + if r.rasterized then 1 else 0 }

/-- The glyph bounding-box computation of the miss path (src/main.c lines
571-576): the box is queried at scales `(font_scale, font_scale)` and the
returned pair is `(glyph_width_px, glyph_height_px)`, the box's side
lengths. -/
def glyph_box_px (sh : Shaper) (font_scale : ℚ) (codepoint : Nat) : Int × Int :=
  let box := sh.getGlyphBitmapBox (sh.findGlyphIndex codepoint) font_scale font_scale
  (box.2.2.1 - box.1, box.2.2.2 - box.2.1)

/-- Spec section 4.3 step 1's description of the same computation, stated
from the spec's words for comparison with `glyph_box_px`: the box queried
at `(scale*3, scale)`, claimed to make the returned width already the
tripled subpixel-resolution width. -/
def spec_glyph_box_px (sh : Shaper) (font_scale : ℚ) (codepoint : Nat) : Int × Int :=
  let box := sh.getGlyphBitmapBox (sh.findGlyphIndex codepoint) (font_scale * 3) font_scale
  (box.2.2.1 - box.1, box.2.2.2 - box.2.1)

/-- The amended description of the bounding-box computation: the box is
queried at `(scale, scale)`, horizontal resolution untripled. -/
def amended_glyph_box_px (sh : Shaper) (font_scale : ℚ) (codepoint : Nat) : Int × Int :=
  let box := sh.getGlyphBitmapBox (sh.findGlyphIndex codepoint) font_scale font_scale
  (box.2.2.1 - box.1, box.2.2.2 - box.2.1)

/-- The glyph working bitmap after rasterization (src/main.c lines 603-615):
a zero-initialized grayscale bitmap into which the shaper rasterizes the
glyph at scales `(font_scale * horizontal_resolution, font_scale)`
(line 613), at a horizontal offset of `glyph_offset_x` = 6 subpixel
columns (line 608: the bitmap pointer is advanced by `glyph_offset_x`
before the call). -/
def glyph_bitmap_px (sh : Shaper) (font_scale : ℚ) (glyph_index : Int) (x y : Nat) : Nat :=
  if glyph_offset_x ≤ x then
    sh.makeGlyphBitmap glyph_index (font_scale * (horizontal_resolution : ℚ)) font_scale
      (x - glyph_offset_x) y
  else 0

/-- The FreeType LCD filter weights (src/main.c line 626). -/
def filter_weights : List Nat := [0x08, 0x4D, 0x56, 0x4D, 0x08]

/-- One store into a two-dimensional bitmap modelled as a function, used
for the write `atlas_item_bitmap[x + y*bitmap_stride] = ...`
(src/main.c line 650). -/
def write2 (bmp : Nat → Nat → Nat) (x y v : Nat) : Nat → Nat → Nat :=
  fun u w => if u = x ∧ w = y then v else bmp u w

/-- The kernel application at destination column `x` of row `y`
(src/main.c lines 637-644): taps run from `x - 2` to `kernel_x_end`, which
is `x + 1` instead of `x + 2` at the rightmost processed column
`x = x_end - 1`, with the filter weight index increasing from 0 per tap. -/
def lcd_kernel_sum (src : Nat → Nat → Nat) (x_end x y : Nat) : Nat :=
  (List.range ((if x = x_end - 1 then x + 1 else x + 2) + 1 - (x - 2))).foldl
    (fun sum i => sum + src (x - 2 + i) y * filter_weights.getD i 0) 0

/-- The filtered value written at `(x, y)` (src/main.c lines 649-650):
divide the tap sum by 255 once at the end and saturate at 255. -/
def lcd_output (src : Nat → Nat → Nat) (x_end x y : Nat) : Nat :=
  if lcd_kernel_sum src x_end x y / 255 > 255 then 255
  else lcd_kernel_sum src x_end x y / 255

/-- The inner filter loop over destination columns `x ∈ [4, x_end)` of one
row (src/main.c lines 634-651). -/
def lcd_filter_row (src : Nat → Nat → Nat) (x_end y : Nat) (bmp : Nat → Nat → Nat) :
    Nat → Nat → Nat :=
  (List.range (x_end - 4)).foldl
    (fun b i => write2 b (4 + i) y (lcd_output src x_end (4 + i) y)) bmp

/-- The full filter loop (src/main.c lines 627-652) over rows
`y ∈ [0, padded_glyph_height_px)`, starting from the `calloc`-zeroed
`atlas_item_bitmap`, with
`x_end = padded_glyph_width_px * horizontal_resolution - 1` (line 634). -/
def lcd_filter (src : Nat → Nat → Nat) (padded_glyph_width_px padded_glyph_height_px : Nat) :
    Nat → Nat → Nat :=
  (List.range padded_glyph_height_px).foldl
    (fun b y => lcd_filter_row src (padded_glyph_width_px * horizontal_resolution - 1) y b)
    (fun _ _ => 0)

/-- A concrete shaper whose bounding box depends on the horizontal scale:
at scale_x = 1 the box is 5 wide, at any other horizontal scale it is 15
wide.  Distinguishes a box query at `(s, s)` from one at `(s*3, s)`. -/
def shaper_scale_probe : Shaper where
  findGlyphIndex := fun _ => 7
  getGlyphBitmapBox := fun _ sx _ => (0, -7, if sx = 1 then 5 else 15, 0)
  makeGlyphBitmap := fun _ _ _ _ _ => 0
  getGlyphHMetrics := fun _ => (10, 1)
  getCodepointKernAdvance := fun _ _ => 0

/-- A concrete shaper for which every glyph has a zero-size bounding box,
like a font of blanks: glyph index 3, advance width 640, left side bearing
32, kern advance -80 for every pair. -/
def shaper_blank : Shaper where
  findGlyphIndex := fun _ => 3
  getGlyphBitmapBox := fun _ _ _ => (0, 0, 0, 0)
  makeGlyphBitmap := fun _ _ _ _ _ => 0
  getGlyphHMetrics := fun _ => (640, 32)
  getCodepointKernAdvance := fun _ _ => -80

/-- The zero-initialized atlas table (src/main.c line 484:
`glyph_atlas_items[127] = {}`). -/
def atlas_items_empty : Nat → glyph_atlas_item_t :=
  fun _ => ⟨false, ⟨0, 0, 0, 0⟩, 0, 0⟩

/-- An atlas table with one filled (sentinel) entry at codepoint 32. -/
def atlas_items_one : Nat → glyph_atlas_item_t :=
  fun c => if c = 32 then ⟨true, ⟨-1, -1, -1, -1⟩, 3, 0⟩ else ⟨false, ⟨0, 0, 0, 0⟩, 0, 0⟩

/-- A source bitmap with a single saturated subpixel at column 8 of row 0. -/
def src_single_column : Nat → Nat → Nat := fun x y => if x = 8 ∧ y = 0 then 255 else 0

/-- A small layout state with a pending previous codepoint 65. -/
def layout_state_a : LayoutState := ⟨10, 23, 65, atlas_items_empty, [], 0⟩

theorem leadingOnes_eq_zero (b : Nat) (h : b < 128) : leadingOnes b = 0 := by
  unfold leadingOnes
  rw [if_pos h]

theorem leadingOnes_eq_two (b : Nat) (h1 : 192 ≤ b) (h2 : b < 224) : leadingOnes b = 2 := by
  unfold leadingOnes
  rw [if_neg (by omega), if_neg (by omega), if_pos (by omega)]

theorem leadingOnes_eq_three (b : Nat) (h1 : 224 ≤ b) (h2 : b < 240) : leadingOnes b = 3 := by
  unfold leadingOnes
  rw [if_neg (by omega), if_neg (by omega), if_neg (by omega), if_pos (by omega)]

theorem leadingOnes_eq_four (b : Nat) (h1 : 240 ≤ b) (h2 : b < 248) : leadingOnes b = 4 := by
  unfold leadingOnes
  rw [if_neg (by omega), if_neg (by omega), if_neg (by omega), if_neg (by omega),
    if_pos (by omega)]

theorem cont_byte_and_192 (r : Nat) (hr : r < 64) : (128 + r) &&& 192 = 128 := by
  have h : ∀ t : Fin 64, (128 + t.val) &&& 192 = 128 := by decide
  exact h ⟨r, hr⟩

theorem cont_byte_and_63 (r : Nat) (hr : r < 64) : (128 + r) &&& 63 = r := by
  have h : ∀ t : Fin 64, (128 + t.val) &&& 63 = t.val := by decide
  exact h ⟨r, hr⟩

theorem toNat_8_sub_one_sub (n : Nat) : ((8 : Int) - 1 - (n : Int)).toNat = 7 - n := by
  omega

theorem toNat_sub_one (n : Nat) : ((n : Int) - 1).toNat = n - 1 := by
  omega

theorem utf8_next_one_byte (mem : Nat → Nat) (endPos pos c : Nat)
    (hend : pos + 1 ≤ endPos) (hc1 : 0 < c) (hc2 : c < 0x80)
    (hm0 : mem pos = c) :
    utf8_next mem endPos pos = ⟨pos + 1, c, [pos]⟩ := by
  have hlo : leadingOnes (mem pos) = 0 := by rw [hm0]; exact leadingOnes_eq_zero c hc2
  unfold utf8_next
  rw [if_neg (by omega : ¬ pos = endPos),
      if_neg (by omega : ¬ mem pos = 0),
      if_neg (by omega : ¬ leadingOnes (mem pos) = 1),
      if_pos (by omega)]
  simp only [hlo, toNat_8_sub_one_sub, toNat_sub_one]
  norm_num [cont_loop, hm0]
  omega

theorem utf8_next_two_byte (mem : Nat → Nat) (endPos pos c : Nat)
    (hend : pos + 2 ≤ endPos) (hc1 : 0x80 ≤ c) (hc2 : c < 0x800)
    (hm0 : mem pos = 192 + c / 64) (hm1 : mem (pos + 1) = 128 + c % 64) :
    utf8_next mem endPos pos = ⟨pos + 2, c, [pos, pos + 1]⟩ := by
  have hlo : leadingOnes (mem pos) = 2 := by
    rw [hm0]; exact leadingOnes_eq_two _ (by omega) (by omega)
  unfold utf8_next
  rw [if_neg (by omega : ¬ pos = endPos),
      if_neg (by omega : ¬ mem pos = 0),
      if_neg (by omega : ¬ leadingOnes (mem pos) = 1),
      if_pos (by omega)]
  simp only [hlo, toNat_8_sub_one_sub, toNat_sub_one]
  norm_num [cont_loop, hm0, hm1,
    cont_byte_and_192 (c % 64) (by omega), cont_byte_and_63 (c % 64) (by omega)]
  omega

theorem utf8_next_three_byte (mem : Nat → Nat) (endPos pos c : Nat)
    (hend : pos + 3 ≤ endPos) (hc1 : 0x800 ≤ c) (hc2 : c < 0x10000)
    (hm0 : mem pos = 224 + c / 4096) (hm1 : mem (pos + 1) = 128 + c / 64 % 64)
    (hm2 : mem (pos + 2) = 128 + c % 64) :
    utf8_next mem endPos pos = ⟨pos + 3, c, [pos, pos + 1, pos + 2]⟩ := by
  have hlo : leadingOnes (mem pos) = 3 := by
    rw [hm0]; exact leadingOnes_eq_three _ (by omega) (by omega)
  unfold utf8_next
  rw [if_neg (by omega : ¬ pos = endPos),
      if_neg (by omega : ¬ mem pos = 0),
      if_neg (by omega : ¬ leadingOnes (mem pos) = 1),
      if_pos (by omega)]
  simp only [hlo, toNat_8_sub_one_sub, toNat_sub_one]
  norm_num [cont_loop, hm0, hm1, hm2,
    cont_byte_and_192 (c / 64 % 64) (by omega), cont_byte_and_63 (c / 64 % 64) (by omega),
    cont_byte_and_192 (c % 64) (by omega), cont_byte_and_63 (c % 64) (by omega)]
  omega

theorem utf8_next_four_byte (mem : Nat → Nat) (endPos pos c : Nat)
    (hend : pos + 4 ≤ endPos) (hc1 : 0x10000 ≤ c) (hc2 : c < 0x110000)
    (hm0 : mem pos = 240 + c / 262144) (hm1 : mem (pos + 1) = 128 + c / 4096 % 64)
    (hm2 : mem (pos + 2) = 128 + c / 64 % 64) (hm3 : mem (pos + 3) = 128 + c % 64) :
    utf8_next mem endPos pos = ⟨pos + 4, c, [pos, pos + 1, pos + 2, pos + 3]⟩ := by
  have hlo : leadingOnes (mem pos) = 4 := by
    rw [hm0]; exact leadingOnes_eq_four _ (by omega) (by omega)
  unfold utf8_next
  rw [if_neg (by omega : ¬ pos = endPos),
      if_neg (by omega : ¬ mem pos = 0),
      if_neg (by omega : ¬ leadingOnes (mem pos) = 1),
      if_pos (by omega)]
  simp only [hlo, toNat_8_sub_one_sub, toNat_sub_one]
  norm_num [cont_loop, hm0, hm1, hm2, hm3,
    cont_byte_and_192 (c / 4096 % 64) (by omega), cont_byte_and_63 (c / 4096 % 64) (by omega),
    cont_byte_and_192 (c / 64 % 64) (by omega), cont_byte_and_63 (c / 64 % 64) (by omega),
    cont_byte_and_192 (c % 64) (by omega), cont_byte_and_63 (c % 64) (by omega)]
  omega

theorem skip_cont_loop_bounds (mem : Nat → Nat) :
    ∀ fuel p, p ≤ (skip_cont_loop mem p fuel).1 ∧ (skip_cont_loop mem p fuel).1 ≤ p + fuel := by
  intro fuel
  induction fuel with
  | zero => intro p; simp [skip_cont_loop]
  | succ n ih =>
    intro p
    by_cases hb : mem p &&& 0xC0 = 0x80
    · have e : skip_cont_loop mem p (n + 1)
          = ((skip_cont_loop mem (p + 1) n).1, p :: (skip_cont_loop mem (p + 1) n).2) := by
        simp [skip_cont_loop, hb]
      rw [e]
      have h := ih (p + 1)
      constructor
      · exact le_trans (by omega) h.1
      · have h2 := h.2
        simp only
        omega
    · have e : skip_cont_loop mem p (n + 1) = (p, [p]) := by
        simp [skip_cont_loop, hb]
      rw [e]
      constructor
      · exact le_refl p
      · simp only
        omega

theorem cont_loop_bounds (mem : Nat → Nat) :
    ∀ n p cp, p ≤ (cont_loop mem p cp n).1 ∧ (cont_loop mem p cp n).1 ≤ p + n := by
  intro n
  induction n with
  | zero => intro p cp; simp [cont_loop]
  | succ m ih =>
    intro p cp
    by_cases hb : mem p &&& 0xC0 = 0x80
    · have e : (cont_loop mem p cp (m + 1)).1
          = (cont_loop mem (p + 1) (cp * 64 + (mem p &&& 0x3F)) m).1 := by
        simp [cont_loop, hb]
      rw [e]
      have h := ih (p + 1) (cp * 64 + (mem p &&& 0x3F))
      constructor
      · exact le_trans (by omega) h.1
      · omega
    · have e : (cont_loop mem p cp (m + 1)).1 = p := by
        simp [cont_loop, hb]
      rw [e]
      omega

theorem rasterize_and_store_filled (sh : Shaper) (font_scale : ℚ) (codepoint : Nat) :
    (rasterize_and_store sh font_scale codepoint).1.filled = true := by
  simp only [rasterize_and_store]
  split
  · rfl
  · rfl

theorem glyph_atlas_get_or_create_hit (sh : Shaper) (font_scale : ℚ)
    (items : Nat → glyph_atlas_item_t) (codepoint : Nat)
    (h : (items codepoint).filled = true) :
    glyph_atlas_get_or_create sh font_scale items codepoint
      = ⟨items codepoint, items, false⟩ := by
  simp only [glyph_atlas_get_or_create]
  rw [if_pos h]

theorem glyph_atlas_get_or_create_miss (sh : Shaper) (font_scale : ℚ)
    (items : Nat → glyph_atlas_item_t) (codepoint : Nat)
    (h : (items codepoint).filled = false) :
    glyph_atlas_get_or_create sh font_scale items codepoint
      = ⟨(rasterize_and_store sh font_scale codepoint).1,
         fun d => if d = codepoint then (rasterize_and_store sh font_scale codepoint).1
                  else items d,
         (rasterize_and_store sh font_scale codepoint).2⟩ := by
  simp only [glyph_atlas_get_or_create]
  rw [if_neg (by simp [h])]

/-- C3: the claim says `utf8_next` reads only buffer positions strictly
before the end bound.  Evaluating the code at the single stray continuation
byte 0x80 with end bound 1 shows the skip loop dereferencing position 1,
which is exactly the end bound: the guard's dereference happens before its
bound check. -/
theorem c3_skip_loop_reads_end_position :
    (utf8_next mem_stray_cont 1 0).reads = [0, 1] ∧
    1 ∈ (utf8_next mem_stray_cont 1 0).reads ∧ ¬ 1 < 1 := by
  decide

/-- C4 counterexample: decoding the two bytes 0xC0 0x80 yields codepoint 0,
not the replacement character U+FFFD the claim states. -/
theorem c4_overlong_counterexample :
    (utf8_next mem_c0_80 2 0).codepoint = 0 ∧
    ¬ (utf8_next mem_c0_80 2 0).codepoint = 0xFFFD := by
  decide

/-- C4 amended: decoding the two-byte input 0xC0 0x80 with `utf8_next`
yields codepoint 0 — the overlong sequence is structurally well-formed and
is decoded to U+0000 without any overlong rejection — and the returned
cursor is positioned after both bytes, so the next call resumes on the
following byte. -/
theorem c4_overlong_decodes_to_zero (mem : Nat → Nat) (endPos pos : Nat)
    (hm0 : mem pos = 0xC0) (hm1 : mem (pos + 1) = 0x80) (hend : pos + 2 ≤ endPos) :
    (utf8_next mem endPos pos).codepoint = 0 ∧
    (utf8_next mem endPos pos).pos = pos + 2 := by
  have hlo : leadingOnes (mem pos) = 2 := by
    rw [hm0]; exact leadingOnes_eq_two _ (by omega) (by omega)
  unfold utf8_next
  rw [if_neg (by omega : ¬ pos = endPos),
      if_neg (by omega : ¬ mem pos = 0),
      if_neg (by omega : ¬ leadingOnes (mem pos) = 1),
      if_pos (by omega)]
  simp only [hlo, toNat_8_sub_one_sub, toNat_sub_one]
  norm_num [cont_loop, hm0, hm1,
    cont_byte_and_192 0 (by omega), cont_byte_and_63 0 (by omega)]

/-- C4 witness: the amended theorem applied to the concrete buffer
0xC0 0x80 with end bound 2. -/
theorem c4_overlong_decodes_to_zero_witness :
    (mem_c0_80 0 = 0xC0 ∧ mem_c0_80 (0 + 1) = 0x80 ∧ 0 + 2 ≤ 2) ∧
    ((utf8_next mem_c0_80 2 0).codepoint = 0 ∧ (utf8_next mem_c0_80 2 0).pos = 0 + 2) :=
  ⟨by decide, c4_overlong_decodes_to_zero mem_c0_80 2 0 (by decide) (by decide) (by decide)⟩

/-- C7 counterexample: the scalar value U+0000 is encoded as the single
byte 0x00, but decoding it returns the cursor unchanged (the zero byte is
the decoder's terminator), so the cursor does not advance by the encoded
byte length. -/
theorem c7_roundtrip_fails_at_zero :
    (utf8_encode 0).length = 1 ∧
    (utf8_next (fun i => (utf8_encode 0).getD i 0) 1 0).codepoint = 0 ∧
    (utf8_next (fun i => (utf8_encode 0).getD i 0) 1 0).pos = 0 ∧
    ¬ (utf8_next (fun i => (utf8_encode 0).getD i 0) 1 0).pos = 0 + (utf8_encode 0).length := by
  decide

/-- C7 amended: for every nonzero Unicode scalar value (U+0000 excluded,
where the decoder's terminator convention stops the cursor), encoding to
canonical UTF-8 and decoding with `utf8_next` yields the original value and
advances the cursor by exactly the encoded byte length. -/
theorem c7_roundtrip_nonzero_scalars (mem : Nat → Nat) (endPos pos c : Nat)
    (hc0 : 0 < c) (hcmax : c < 0x110000)
    (_hsurr : ¬ (0xD800 ≤ c ∧ c ≤ 0xDFFF))
    (hmem : ∀ i, i < (utf8_encode c).length → mem (pos + i) = (utf8_encode c).getD i 0)
    (hend : pos + (utf8_encode c).length ≤ endPos) :
    (utf8_next mem endPos pos).codepoint = c ∧
    (utf8_next mem endPos pos).pos = pos + (utf8_encode c).length := by
  by_cases h1 : c < 0x80
  · have he : utf8_encode c = [c] := by unfold utf8_encode; rw [if_pos h1]
    rw [he] at hmem hend ⊢
    have hm0 := hmem 0 (by norm_num)
    simp only [List.getD] at hm0
    rw [utf8_next_one_byte mem endPos pos c (by simpa using hend) hc0 h1 (by simpa using hm0)]
    simp
  · by_cases h2 : c < 0x800
    · have he : utf8_encode c = [0xC0 + c / 64, 0x80 + c % 64] := by
        unfold utf8_encode; rw [if_neg h1, if_pos h2]
      rw [he] at hmem hend ⊢
      have hm0 := hmem 0 (by norm_num)
      have hm1 := hmem 1 (by norm_num)
      simp only [List.getD] at hm0 hm1
      rw [utf8_next_two_byte mem endPos pos c (by simpa using hend) (by omega) h2
        (by simpa using hm0) (by simpa using hm1)]
      simp
    · by_cases h3 : c < 0x10000
      · have he : utf8_encode c = [0xE0 + c / 4096, 0x80 + c / 64 % 64, 0x80 + c % 64] := by
          unfold utf8_encode; rw [if_neg h1, if_neg h2, if_pos h3]
        rw [he] at hmem hend ⊢
        have hm0 := hmem 0 (by norm_num)
        have hm1 := hmem 1 (by norm_num)
        have hm2 := hmem 2 (by norm_num)
        simp only [List.getD] at hm0 hm1 hm2
        rw [utf8_next_three_byte mem endPos pos c (by simpa using hend) (by omega) h3
          (by simpa using hm0) (by simpa using hm1) (by simpa using hm2)]
        simp
      · have he : utf8_encode c
            = [0xF0 + c / 262144, 0x80 + c / 4096 % 64, 0x80 + c / 64 % 64, 0x80 + c % 64] := by
          unfold utf8_encode; rw [if_neg h1, if_neg h2, if_neg h3]
        rw [he] at hmem hend ⊢
        have hm0 := hmem 0 (by norm_num)
        have hm1 := hmem 1 (by norm_num)
        have hm2 := hmem 2 (by norm_num)
        have hm3 := hmem 3 (by norm_num)
        simp only [List.getD] at hm0 hm1 hm2 hm3
        rw [utf8_next_four_byte mem endPos pos c (by simpa using hend) (by omega) hcmax
          (by simpa using hm0) (by simpa using hm1) (by simpa using hm2) (by simpa using hm3)]
        simp

/-- C7 witness: the amended round trip applied to the three-byte scalar
U+20AC, decoded from its own canonical encoding. -/
theorem c7_roundtrip_nonzero_scalars_witness :
    (0 < 0x20AC ∧ 0x20AC < 0x110000 ∧ ¬ ((0xD800 ≤ 0x20AC ∧ 0x20AC ≤ 0xDFFF)) ∧
      0 + (utf8_encode 0x20AC).length ≤ 3) ∧
    ((utf8_next (fun i => (utf8_encode 0x20AC).getD i 0) 3 0).codepoint = 0x20AC ∧
     (utf8_next (fun i => (utf8_encode 0x20AC).getD i 0) 3 0).pos
        = 0 + (utf8_encode 0x20AC).length) :=
  ⟨by decide,
   c7_roundtrip_nonzero_scalars (fun i => (utf8_encode 0x20AC).getD i 0) 3 0 0x20AC
     (by decide) (by decide) (by decide) (fun i _ => by rw [Nat.zero_add]) (by decide)⟩

/-- C10: whenever `utf8_next` returns a nonzero codepoint from a valid
cursor, the returned cursor is strictly greater than the input cursor and
still at most the end bound; consequently the codepoint iteration of the
layout loop terminates — `utf8_decode_from` is total by well-founded
recursion on `endPos - pos`, and its guarded unfolding coincides with the
C loop's unguarded one. -/
theorem c10_utf8_next_progress (mem : Nat → Nat) (endPos pos : Nat) (hpos : pos ≤ endPos) :
    ((utf8_next mem endPos pos).codepoint ≠ 0 →
      pos < (utf8_next mem endPos pos).pos ∧ (utf8_next mem endPos pos).pos ≤ endPos) ∧
    utf8_decode_from mem endPos pos =
      (if (utf8_next mem endPos pos).codepoint = 0 then []
       else (utf8_next mem endPos pos).codepoint ::
         utf8_decode_from mem endPos (utf8_next mem endPos pos).pos) := by
  have hprog : (utf8_next mem endPos pos).codepoint ≠ 0 →
      pos < (utf8_next mem endPos pos).pos ∧ (utf8_next mem endPos pos).pos ≤ endPos := by
    intro hcp
    unfold utf8_next at hcp ⊢
    by_cases h1 : pos = endPos
    · rw [if_pos h1] at hcp
      simp at hcp
    rw [if_neg h1] at hcp ⊢
    by_cases h2 : mem pos = 0
    · rw [if_pos h2] at hcp
      simp at hcp
    rw [if_neg h2] at hcp ⊢
    by_cases h3 : leadingOnes (mem pos) = 1
    · rw [if_pos h3] at hcp ⊢
      have hb := skip_cont_loop_bounds mem (endPos - (pos + 1)) (pos + 1)
      constructor
      · show pos < (skip_cont_loop mem (pos + 1) (endPos - (pos + 1))).1
        omega
      · show (skip_cont_loop mem (pos + 1) (endPos - (pos + 1))).1 ≤ endPos
        omega
    rw [if_neg h3] at hcp ⊢
    by_cases h4 : ((pos : Int) + 1) + ((leadingOnes (mem pos) : Int) - 1) ≤ (endPos : Int)
    · rw [if_pos h4] at hcp ⊢
      have hb := cont_loop_bounds mem (((leadingOnes (mem pos) : Int) - 1).toNat) (pos + 1)
        (mem pos % 2 ^ (((8 : Int) - 1 - (leadingOnes (mem pos) : Int)).toNat))
      constructor
      · show pos < (cont_loop mem (pos + 1)
          (mem pos % 2 ^ (((8 : Int) - 1 - (leadingOnes (mem pos) : Int)).toNat))
          (((leadingOnes (mem pos) : Int) - 1).toNat)).1
        omega
      · show (cont_loop mem (pos + 1)
          (mem pos % 2 ^ (((8 : Int) - 1 - (leadingOnes (mem pos) : Int)).toNat))
          (((leadingOnes (mem pos) : Int) - 1).toNat)).1 ≤ endPos
        omega
    · rw [if_neg h4] at hcp ⊢
      constructor
      · show pos < endPos
        omega
      · show endPos ≤ endPos
        omega
  refine ⟨hprog, ?_⟩
  rw [utf8_decode_from]
  by_cases hz : (utf8_next mem endPos pos).codepoint = 0
  · rw [if_pos hz, dif_neg]
    simp [hz]
  · rw [if_neg hz, dif_pos ⟨hz, (hprog hz).1, (hprog hz).2⟩]

/-- C10 witness: progress at the concrete all-ASCII buffer of byte 65 with
end bound 5 and cursor 0. -/
theorem c10_utf8_next_progress_witness :
    0 ≤ 5 ∧
    (((utf8_next (fun _ => 65) 5 0).codepoint ≠ 0 →
        0 < (utf8_next (fun _ => 65) 5 0).pos ∧ (utf8_next (fun _ => 65) 5 0).pos ≤ 5) ∧
      utf8_decode_from (fun _ => 65) 5 0 =
        (if (utf8_next (fun _ => 65) 5 0).codepoint = 0 then []
         else (utf8_next (fun _ => 65) 5 0).codepoint ::
           utf8_decode_from (fun _ => 65) 5 (utf8_next (fun _ => 65) 5 0).pos)) :=
  ⟨by decide, c10_utf8_next_progress (fun _ => 65) 5 0 (by decide)⟩

/-- C1 counterexample: processing the line-feed codepoint does change the
stored previous codepoint.  With previous codepoint 65 ('A'), after the
layout step for codepoint 10 ('\n') the stored value is 10, not 65 — the
assignment `prev_codepoint = codepoint` on src/main.c line 551 runs
unconditionally, before the line-feed branch. -/
theorem c1_prev_codepoint_counterexample :
    layout_state_a.prev_codepoint = 65 ∧
    (layout_step shaper_blank 1 10 12 ⟨218, 218, 218, 255⟩ layout_state_a 10).prev_codepoint
      = 10 ∧
    ¬ (layout_step shaper_blank 1 10 12 ⟨218, 218, 218, 255⟩ layout_state_a 10).prev_codepoint
      = 65 := by
  decide

/-- C1 amended: the layout loop updates the previous-codepoint state to
every processed codepoint, including the line feed; after processing '\n'
the stored value is the line-feed codepoint 10 (so the kerning adjustment
for the first glyph after the break is computed against the line feed, not
against the last real glyph before it), while the pen is reset to the left
margin and advanced one rounded line height down. -/
theorem c1_prev_codepoint_updated_on_linefeed (sh : Shaper)
    (font_scale pos_x line_height : ℚ) (text_color : color_t) (st : LayoutState) :
    (layout_step sh font_scale pos_x line_height text_color st 10).prev_codepoint = 10 ∧
    (layout_step sh font_scale pos_x line_height text_color st 10).current_x = pos_x ∧
    (layout_step sh font_scale pos_x line_height text_color st 10).current_y
      = st.current_y + (c_round line_height : ℚ) := by
  simp [layout_step]

/-- C2: the assertion `assert(codepoint <= 127)` (src/main.c line 561)
admits codepoint 127, but `glyph_atlas_items` has 127 entries, so its valid
indices are 0..126: the assertion-admitted domain is not a subset of the
table's valid indices, and codepoint 127 passes the assert yet indexes out
of bounds on both the lookup (line 562) and the store (line 676). -/
theorem c2_assert_admits_out_of_bounds_index :
    codepoint_assert 127 ∧ ¬ 127 < glyph_atlas_items_length :=
  ⟨Nat.le_refl 127, by decide⟩

/-- C8: the atlas cache's get-or-create is idempotent — requesting a
codepoint a second time returns exactly the entry returned the first time,
leaves the table unchanged, and triggers no second rasterization or upload
— and an entry whose `filled` flag is true is never mutated by any later
access, for any codepoint. -/
theorem c8_atlas_cache_idempotent (sh : Shaper) (font_scale : ℚ)
    (items : Nat → glyph_atlas_item_t) (codepoint c other : Nat)
    (hc : (items c).filled = true) :
    ((glyph_atlas_get_or_create sh font_scale
        (glyph_atlas_get_or_create sh font_scale items codepoint).items codepoint).item
      = (glyph_atlas_get_or_create sh font_scale items codepoint).item ∧
     (glyph_atlas_get_or_create sh font_scale
        (glyph_atlas_get_or_create sh font_scale items codepoint).items codepoint).items
      = (glyph_atlas_get_or_create sh font_scale items codepoint).items ∧
     (glyph_atlas_get_or_create sh font_scale
        (glyph_atlas_get_or_create sh font_scale items codepoint).items codepoint).rasterized
      = false) ∧
    (glyph_atlas_get_or_create sh font_scale items other).items c = items c := by
  constructor
  · by_cases h : (items codepoint).filled = true
    · simp [glyph_atlas_get_or_create_hit sh font_scale items codepoint h]
    · have hmf : (items codepoint).filled = false := by simpa using h
      rw [glyph_atlas_get_or_create_miss sh font_scale items codepoint hmf]
      have hfill : ((fun d => if d = codepoint
            then (rasterize_and_store sh font_scale codepoint).1 else items d)
          codepoint).filled = true := by
        simp [rasterize_and_store_filled]
      rw [glyph_atlas_get_or_create_hit sh font_scale _ codepoint hfill]
      simp
  · by_cases h : (items other).filled = true
    · rw [glyph_atlas_get_or_create_hit sh font_scale items other h]
    · have hmf : (items other).filled = false := by simpa using h
      rw [glyph_atlas_get_or_create_miss sh font_scale items other hmf]
      have hco : ¬ c = other := by
        intro e
        rw [e, hmf] at hc
        cases hc
      simp [hco]

/-- C8 witness: idempotence at a concrete shaper and a table with one
filled entry at codepoint 32, requesting codepoint 65 twice while checking
entry 32 against a request for codepoint 66. -/
theorem c8_atlas_cache_idempotent_witness :
    (atlas_items_one 32).filled = true ∧
    (((glyph_atlas_get_or_create shaper_blank 1
        (glyph_atlas_get_or_create shaper_blank 1 atlas_items_one 65).items 65).item
      = (glyph_atlas_get_or_create shaper_blank 1 atlas_items_one 65).item ∧
     (glyph_atlas_get_or_create shaper_blank 1
        (glyph_atlas_get_or_create shaper_blank 1 atlas_items_one 65).items 65).items
      = (glyph_atlas_get_or_create shaper_blank 1 atlas_items_one 65).items ∧
     (glyph_atlas_get_or_create shaper_blank 1
        (glyph_atlas_get_or_create shaper_blank 1 atlas_items_one 65).items 65).rasterized
      = false) ∧
    (glyph_atlas_get_or_create shaper_blank 1 atlas_items_one 66).items 32
      = atlas_items_one 32) :=
  ⟨by decide, c8_atlas_cache_idempotent shaper_blank 1 atlas_items_one 65 32 66 (by decide)⟩

/-- C9: a codepoint whose glyph bounding box (queried by the miss path) has
zero width or zero height produces a filled cache entry with all texture
coordinates equal to the sentinel -1, skips rasterization and upload
entirely, emits no rectangle instance, and still advances the pen x by the
glyph's advance width times the font scale (after the usual kerning
adjustment). -/
theorem c9_empty_glyph_stability (sh : Shaper) (font_scale pos_x line_height : ℚ)
    (text_color : color_t) (st : LayoutState) (codepoint : Nat)
    (hnl : ¬ codepoint = 10)
    (hmiss : (st.atlas_items codepoint).filled = false)
    (hempty :
      (sh.getGlyphBitmapBox (sh.findGlyphIndex codepoint) font_scale font_scale).2.2.1
          - (sh.getGlyphBitmapBox (sh.findGlyphIndex codepoint) font_scale font_scale).1 = 0
        ∨ (sh.getGlyphBitmapBox (sh.findGlyphIndex codepoint) font_scale font_scale).2.2.2
          - (sh.getGlyphBitmapBox (sh.findGlyphIndex codepoint) font_scale font_scale).2.1 = 0) :
    ((layout_step sh font_scale pos_x line_height text_color st codepoint).atlas_items
        codepoint).filled = true ∧
    ((layout_step sh font_scale pos_x line_height text_color st codepoint).atlas_items
        codepoint).tex_coords = ⟨-1, -1, -1, -1⟩ ∧
    (layout_step sh font_scale pos_x line_height text_color st codepoint).rasterizations
      = st.rasterizations ∧
    (layout_step sh font_scale pos_x line_height text_color st codepoint).rects = st.rects ∧
    (layout_step sh font_scale pos_x line_height text_color st codepoint).current_x
      = (if st.prev_codepoint ≠ 0 then
           st.current_x + (sh.getCodepointKernAdvance st.prev_codepoint codepoint : ℚ) * font_scale
         else st.current_x)
        + ((sh.getGlyphHMetrics (sh.findGlyphIndex codepoint)).1 : ℚ) * font_scale := by
  have hras : rasterize_and_store sh font_scale codepoint
      = ({ filled := true, tex_coords := ⟨-1, -1, -1, -1⟩,
           glyph_index := sh.findGlyphIndex codepoint,
           distance_from_baseline_to_top_px :=
             -(sh.getGlyphBitmapBox (sh.findGlyphIndex codepoint) font_scale font_scale).2.1 },
         false) := by
    simp only [rasterize_and_store]
    rw [if_neg (by omega)]
  have hlook : glyph_atlas_get_or_create sh font_scale st.atlas_items codepoint
      = ⟨{ filled := true, tex_coords := ⟨-1, -1, -1, -1⟩,
           glyph_index := sh.findGlyphIndex codepoint,
           distance_from_baseline_to_top_px :=
             -(sh.getGlyphBitmapBox (sh.findGlyphIndex codepoint) font_scale font_scale).2.1 },
         fun d => if d = codepoint
           then { filled := true, tex_coords := ⟨-1, -1, -1, -1⟩,
                  glyph_index := sh.findGlyphIndex codepoint,
                  distance_from_baseline_to_top_px :=
                    -(sh.getGlyphBitmapBox (sh.findGlyphIndex codepoint)
                        font_scale font_scale).2.1 }
           else st.atlas_items d,
         false⟩ := by
    rw [glyph_atlas_get_or_create_miss sh font_scale st.atlas_items codepoint hmiss, hras]
  simp [layout_step, hnl, hlook]

/-- C9 witness: the empty-glyph behavior at the all-blank shaper, state
`layout_state_a` (pen at (10, 23), previous codepoint 65) and the space
codepoint 32: the entry becomes the filled sentinel, no rectangle and no
rasterization happen, and the pen moves by the kern advance -80 plus the
advance width 640, both scaled by 1. -/
theorem c9_empty_glyph_stability_witness :
    (¬ (32 : Nat) = 10 ∧ (layout_state_a.atlas_items 32).filled = false ∧
      ((shaper_blank.getGlyphBitmapBox (shaper_blank.findGlyphIndex 32) 1 1).2.2.1
          - (shaper_blank.getGlyphBitmapBox (shaper_blank.findGlyphIndex 32) 1 1).1 = 0
        ∨ (shaper_blank.getGlyphBitmapBox (shaper_blank.findGlyphIndex 32) 1 1).2.2.2
          - (shaper_blank.getGlyphBitmapBox (shaper_blank.findGlyphIndex 32) 1 1).2.1 = 0)) ∧
    (((layout_step shaper_blank 1 10 12 ⟨218, 218, 218, 255⟩ layout_state_a 32).atlas_items
        32).filled = true ∧
     ((layout_step shaper_blank 1 10 12 ⟨218, 218, 218, 255⟩ layout_state_a 32).atlas_items
        32).tex_coords = ⟨-1, -1, -1, -1⟩ ∧
     (layout_step shaper_blank 1 10 12 ⟨218, 218, 218, 255⟩ layout_state_a 32).rasterizations
       = layout_state_a.rasterizations ∧
     (layout_step shaper_blank 1 10 12 ⟨218, 218, 218, 255⟩ layout_state_a 32).rects
       = layout_state_a.rects ∧
     (layout_step shaper_blank 1 10 12 ⟨218, 218, 218, 255⟩ layout_state_a 32).current_x
       = (if layout_state_a.prev_codepoint ≠ 0 then
            layout_state_a.current_x
              + (shaper_blank.getCodepointKernAdvance layout_state_a.prev_codepoint 32 : ℚ) * 1
          else layout_state_a.current_x)
         + ((shaper_blank.getGlyphHMetrics (shaper_blank.findGlyphIndex 32)).1 : ℚ) * 1) :=
  ⟨⟨by decide, by decide, by decide⟩,
   c9_empty_glyph_stability shaper_blank 1 10 12 ⟨218, 218, 218, 255⟩ layout_state_a 32
     (by decide) (by decide) (by decide)⟩

/-- C5 counterexample: against a shaper whose reported box depends on the
horizontal scale, the width the code computes (box queried at `(1, 1)`,
src/main.c line 575) is 5, while the width the spec describes (box queried
at `(1*3, 1)`) would be 15 — `glyph_width_px` is not the tripled width. -/
theorem c5_box_scale_counterexample :
    glyph_box_px shaper_scale_probe 1 65 = (5, 7) ∧
    spec_glyph_box_px shaper_scale_probe 1 65 = (15, 7) ∧
    ¬ glyph_box_px shaper_scale_probe 1 65 = spec_glyph_box_px shaper_scale_probe 1 65 := by
  norm_num [glyph_box_px, spec_glyph_box_px, shaper_scale_probe]

/-- C5 amended: the glyph pixel bounding box is queried at scales
`(font_scale, font_scale)` — `glyph_width_px` is the untripled pixel width
— while it is the rasterization call (`stbtt_MakeGlyphBitmap`, src/main.c
line 613) that uses the tripled horizontal scale `(font_scale*3,
font_scale)`; subpixel column counts are obtained later by multiplying
pixel widths by `horizontal_resolution`. -/
theorem c5_box_at_font_scale_raster_at_tripled (sh : Shaper) (font_scale : ℚ)
    (codepoint : Nat) (glyph_index : Int) (x y : Nat) (hx : glyph_offset_x ≤ x) :
    glyph_box_px sh font_scale codepoint = amended_glyph_box_px sh font_scale codepoint ∧
    glyph_bitmap_px sh font_scale glyph_index x y
      = sh.makeGlyphBitmap glyph_index (font_scale * 3) font_scale (x - glyph_offset_x) y := by
  constructor
  · rfl
  · simp only [glyph_bitmap_px]
    rw [if_pos hx]
    norm_num [horizontal_resolution]

/-- C5 witness: the amended statement at the scale-probe shaper, scale 1,
and the first subpixel column of the rasterized region. -/
theorem c5_box_at_font_scale_raster_at_tripled_witness :
    glyph_offset_x ≤ 6 ∧
    (glyph_box_px shaper_scale_probe 1 65 = amended_glyph_box_px shaper_scale_probe 1 65 ∧
     glyph_bitmap_px shaper_scale_probe 1 7 6 0
       = shaper_scale_probe.makeGlyphBitmap 7 (1 * 3) 1 (6 - glyph_offset_x) 0) :=
  ⟨by decide, c5_box_at_font_scale_raster_at_tripled shaper_scale_probe 1 65 7 6 0 (by decide)⟩

theorem lcd_row_fold_apply (src : Nat → Nat → Nat) (x_end yr : Nat) :
    ∀ (n : Nat) (bmp : Nat → Nat → Nat) (x y : Nat),
    ((List.range n).foldl
        (fun b i => write2 b (4 + i) yr (lcd_output src x_end (4 + i) yr)) bmp) x y
      = if 4 ≤ x ∧ x < 4 + n ∧ y = yr then lcd_output src x_end x yr else bmp x y := by
  intro n
  induction n with
  | zero =>
    intro bmp x y
    rw [List.range_zero, List.foldl_nil, if_neg (by omega)]
  | succ m ih =>
    intro bmp x y
    rw [List.range_succ, List.foldl_append, List.foldl_cons, List.foldl_nil]
    simp only [write2]
    by_cases hx : x = 4 + m ∧ y = yr
    · rw [if_pos hx, if_pos (by omega)]
      obtain ⟨hx1, _⟩ := hx
      rw [hx1]
    · rw [if_neg hx, ih bmp x y]
      by_cases h2 : 4 ≤ x ∧ x < 4 + m ∧ y = yr
      · rw [if_pos h2, if_pos (by omega)]
      · rw [if_neg h2, if_neg (by omega)]

theorem lcd_filter_row_apply (src : Nat → Nat → Nat) (x_end yr : Nat)
    (bmp : Nat → Nat → Nat) (x y : Nat) :
    lcd_filter_row src x_end yr bmp x y
      = if 4 ≤ x ∧ x < 4 + (x_end - 4) ∧ y = yr then lcd_output src x_end x yr else bmp x y := by
  simp only [lcd_filter_row]
  exact lcd_row_fold_apply src x_end yr (x_end - 4) bmp x y

theorem lcd_col_fold_apply (src : Nat → Nat → Nat) (x_end : Nat) :
    ∀ (m : Nat) (bmp : Nat → Nat → Nat) (x y : Nat),
    ((List.range m).foldl (fun b yr => lcd_filter_row src x_end yr b) bmp) x y
      = if 4 ≤ x ∧ x < 4 + (x_end - 4) ∧ y < m then lcd_output src x_end x y else bmp x y := by
  intro m
  induction m with
  | zero =>
    intro bmp x y
    rw [List.range_zero, List.foldl_nil, if_neg (by omega)]
  | succ k ih =>
    intro bmp x y
    rw [List.range_succ, List.foldl_append, List.foldl_cons, List.foldl_nil]
    rw [lcd_filter_row_apply src x_end k _ x y]
    by_cases hc : 4 ≤ x ∧ x < 4 + (x_end - 4) ∧ y = k
    · rw [if_pos hc, if_pos (by omega)]
      obtain ⟨_, _, hy⟩ := hc
      rw [hy]
    · rw [if_neg hc, ih bmp x y]
      by_cases h2 : 4 ≤ x ∧ x < 4 + (x_end - 4) ∧ y < k
      · rw [if_pos h2, if_pos (by omega)]
      · rw [if_neg h2, if_neg (by omega)]

/-- C6 counterexample: with `padded_glyph_width_px = 4` the claim's write
range is `[4, 4*3-2) = [4, 10)`, so column 10 should be left zero; but the
filter loop runs `x` up to `x_end = 4*3-1 = 11` exclusive, and on a source
with a saturated subpixel at column 8 it writes the value 8 at column
`10 = 4*3-2`, which is nonzero. -/
theorem c6_filter_range_counterexample :
    lcd_filter src_single_column 4 1 10 0 = 8 ∧
    ¬ 10 < 4 * 3 - 2 ∧ 10 = 4 * horizontal_resolution - 2 := by
  decide

/-- C6 amended: the 5-tap LCD filter writes filtered values exactly to the
destination subpixel columns `x` in the half-open range
`[4, padded_glyph_width_px * 3 - 1)` of each row `y <
padded_glyph_height_px` (the spec's upper bound `padded*3 - 2` is off by
one: the last processed column is `padded*3 - 2` inclusive, where the
kernel extends only one tap right of center), and every position outside
that range is left zero. -/
theorem c6_filter_writes_characterization (src : Nat → Nat → Nat)
    (padded_glyph_width_px padded_glyph_height_px x y : Nat) :
    lcd_filter src padded_glyph_width_px padded_glyph_height_px x y
      = if 4 ≤ x ∧ x < padded_glyph_width_px * horizontal_resolution - 1
            ∧ y < padded_glyph_height_px
        then lcd_output src (padded_glyph_width_px * horizontal_resolution - 1) x y
        else 0 := by
  simp only [lcd_filter]
  rw [lcd_col_fold_apply src (padded_glyph_width_px * horizontal_resolution - 1)
      padded_glyph_height_px (fun _ _ => 0) x y]
  by_cases h : 4 ≤ x ∧ x < 4 + (padded_glyph_width_px * horizontal_resolution - 1 - 4)
      ∧ y < padded_glyph_height_px
  · rw [if_pos h, if_pos (by omega)]
  · rw [if_neg h, if_neg (by omega)]

end SubpixelText
